import Mathlib

/-!
Shallow embedding of `src/index.ts` of the `action-inactivity-lock` GitHub
action.  The embedded program is the current source file: `run`,
`processIssues`, `processPullRequests` and `checkRateLimit`.

Modelling conventions:
* timestamps are integers: `updated_at` and `now` in epoch milliseconds,
  rate-limit `reset` values in epoch seconds (as in the code);
* the JavaScript floating-point day computation
  `(now.getTime() - lastUpdated.getTime()) / 86400000` is modelled by exact
  division in `ℚ`;
* `parseInt` results that may be `NaN` are modelled as `Option ℤ` with
  `none` standing for `NaN`; JS comparisons involving `NaN` are `false`;
* the remote service (octokit) is an explicit environment: page contents,
  rate-limit responses and per-item lock failures are functions supplied to
  the interpreter, and thrown exceptions are modelled as `Option String`
  error values;
* `Date.prototype.toUTCString` is an opaque formatting function passed in
  the configuration;
* the recursive pagination is interpreted with explicit fuel; `none` means
  the fuel ran out, `some r` is the completed run with its observable
  effects (warnings, failures, outputs, lock requests, fetched pages).
-/

namespace InactivityLock

/-- An item returned by `octokit.rest.issues.listForRepo` /
`octokit.rest.pulls.list`: number, title, `updated_at` (epoch ms),
presence of the `pull_request` field, and the `locked` flag. -/
structure Issue where
  number : ℤ
  title : String
  updated_at : ℤ
  pull_request : Bool
  locked : Bool
deriving DecidableEq

/-- One resource entry of the rate-limit response (`remaining`, `reset`). -/
structure ResourceStatus where
  remaining : ℤ
  reset : ℤ
deriving DecidableEq

/-- The `resources` object of `octokit.rest.rateLimit.get()`: the
general-purpose `core` resource and the `search` resource that governs the
query capability.  The code only ever reads `core`. -/
structure RateLimitResources where
  core : ResourceStatus
  search : ResourceStatus
deriving DecidableEq

/-- The `RateLimitStatus` interface of the source. -/
structure RateLimitStatus where
  remaining : ℤ
  resetTime : ℤ
  resetTimeHumanReadable : String
deriving DecidableEq

/-- A manifest entry `{ number, title }` pushed for a locked item. -/
structure LockRec where
  number : ℤ
  title : String
deriving DecidableEq

/-- The parameter object passed to `octokit.rest.issues.lock`: the
`lock_reason` field is `none` when the field is absent from the object. -/
structure LockParams where
  owner : String
  repo : String
  issue_number : ℤ
  lock_reason : Option String
deriving DecidableEq

/-- JS `>` on a number and a possibly-`NaN` number (`none` = `NaN`):
any comparison with `NaN` is `false`. -/
def jsGtInt (a : ℤ) : Option ℤ → Bool
  | none => false
  | some b => decide (b < a)

/-- JS `<=` on a number and a possibly-`NaN` number (`none` = `NaN`). -/
def jsLeInt (a : ℤ) : Option ℤ → Bool
  | none => false
  | some b => decide (a ≤ b)

/-- JS `>` comparing a float (here: exact rational) with a possibly-`NaN`
integer threshold. -/
def jsGtRat (a : ℚ) : Option ℤ → Bool
  | none => false
  | some b => decide ((b : ℚ) < a)

/-- `(now.getTime() - lastUpdated.getTime()) / (1000 * 60 * 60 * 24)`,
with the division taken exactly in `ℚ` (written with `Rat.divInt` so that
it evaluates; `daysDifference_eq_div` below restates it with `/`). -/
def daysDifference (nowMs updatedMs : ℤ) : ℚ :=
  Rat.divInt (nowMs - updatedMs) 86400000

/-- JS truthiness of the lock-reason value (`undefined` and `''` are
falsy). -/
def strTruthy : Option String → Bool
  | none => false
  | some s => decide (s ≠ "")

/-- The lock-request parameter object built by `processIssues` /
`processPullRequests`: `lock_reason` is added only when the configured
reason is truthy. -/
def mkLockParams (owner repo : String) (number : ℤ) (reason : Option String) :
    LockParams :=
  { owner := owner, repo := repo, issue_number := number,
    lock_reason := if strTruthy reason then reason else none }

/-- The lock decision for an issue on a page:
`!issue.pull_request && !issue.locked` guards the inactivity test
`daysDifference > daysInactiveIssues`. -/
def issueEligible (nowMs : ℤ) (daysInactive : Option ℤ) (i : Issue) : Bool :=
  !i.pull_request && !i.locked &&
    jsGtRat (daysDifference nowMs i.updated_at) daysInactive

/-- The lock decision for a pull request on a page: `!pr.locked` guards the
inactivity test `daysDifference > daysInactivePRs`. -/
def prEligible (nowMs : ℤ) (daysInactive : Option ℤ) (p : Issue) : Bool :=
  !p.locked && jsGtRat (daysDifference nowMs p.updated_at) daysInactive

/-- JSON escaping of the characters `JSON.stringify` escapes in the titles
appearing in a manifest. -/
def jsonEscapeChar (c : Char) : String :=
  if c = '"' then "\\\""
  else if c = '\\' then "\\\\"
  else if c = '\n' then "\\n"
  else if c = '\t' then "\\t"
  else if c = '\r' then "\\r"
  else String.singleton c

/-- JSON escaping of a string. -/
def jsonEscapeStr (s : String) : String :=
  String.join (s.data.map jsonEscapeChar)

/-- `JSON.stringify` of one `{ number, title }` manifest entry. -/
def jsonLockRec (r : LockRec) : String :=
  "\x7b\"number\":" ++ toString r.number ++ ",\"title\":\"" ++
    jsonEscapeStr r.title ++ "\"\x7d"

/-- `JSON.stringify` of a manifest (array of `{ number, title }`). -/
def jsonLockRecs (l : List LockRec) : String :=
  "[" ++ String.intercalate "," (l.map jsonLockRec) ++ "]"

/-- `checkRateLimit`: on success projects the `core` resource into a
status (with `resetTime = reset - now` in seconds and the human-readable
form of `reset * 1000`); on failure reports
`Failed to check rate limit: <message>` and returns the zero-valued
status.  The second component is the list of `setFailed` messages. -/
def checkRateLimit (fmt : ℤ → String) (nowSec : ℤ)
    (resp : Except String RateLimitResources) :
    RateLimitStatus × List String :=
  match resp with
  | Except.ok r =>
      ({ remaining := r.core.remaining,
         resetTime := r.core.reset - nowSec,
         resetTimeHumanReadable := fmt (r.core.reset * 1000) }, [])
  | Except.error e =>
      ({ remaining := 0, resetTime := 0, resetTimeHumanReadable := "" },
       ["Failed to check rate limit: " ++ e])

/-- The remote-service environment seen by one category's processing loop:
rate-limit responses and page contents indexed by page number, page-fetch
failures, and per-item lock failures (the error message thrown by
`octokit.rest.issues.lock` for that item number, if any). -/
structure Env where
  rateLimit : ℕ → Except String RateLimitResources
  pages : ℕ → List Issue
  fetchError : ℕ → Option String
  lockError : ℤ → Option String

/-- The configuration a processing loop runs with. -/
structure Config where
  owner : String
  repo : String
  daysInactive : Option ℤ
  reason : Option String
  perPage : ℕ
  rateLimitBuffer : Option ℤ
  nowMs : ℤ
  nowSec : ℤ
  fmt : ℤ → String

/-- The observable effects of one category's processing run. -/
structure RunOut where
  locked : List LockRec
  warnings : List String
  failures : List String
  outputs : List (String × String)
  lockCalls : List LockParams
  pagesFetched : List ℕ
deriving DecidableEq

/-- Result of the per-item `for` loop over one page: the manifest after the
page, the lock requests issued, and the first error thrown by a lock call
(the `for` loop is abandoned at the first throw, which the surrounding
`try` catches at batch level). -/
structure ItemsOut where
  locked : List LockRec
  lockCalls : List LockParams
  err : Option String
deriving DecidableEq

/-- The `for (const issue of issues.data)` body of `processIssues`:
skips pull requests and already-locked issues, locks items past the
threshold, and pushes `{ number, title }` only after a lock call that did
not throw.  A throwing lock call abandons the rest of the page. -/
def processIssueItems (env : Env) (cfg : Config) :
    List Issue → List LockRec → ItemsOut
  | [], acc => { locked := acc, lockCalls := [], err := none }
  | i :: rest, acc =>
    if issueEligible cfg.nowMs cfg.daysInactive i then
      let params := mkLockParams cfg.owner cfg.repo i.number cfg.reason
      match env.lockError i.number with
      | some e => { locked := acc, lockCalls := [params], err := some e }
      | none =>
          let out := processIssueItems env cfg rest
            (acc ++ [{ number := i.number, title := i.title }])
          { locked := out.locked, lockCalls := params :: out.lockCalls,
            err := out.err }
    else
      processIssueItems env cfg rest acc

/-- The `for (const pr of pullRequests.data)` body of
`processPullRequests` (no `pull_request` guard). -/
def processPRItems (env : Env) (cfg : Config) :
    List Issue → List LockRec → ItemsOut
  | [], acc => { locked := acc, lockCalls := [], err := none }
  | p :: rest, acc =>
    if prEligible cfg.nowMs cfg.daysInactive p then
      let params := mkLockParams cfg.owner cfg.repo p.number cfg.reason
      match env.lockError p.number with
      | some e => { locked := acc, lockCalls := [params], err := some e }
      | none =>
          let out := processPRItems env cfg rest
            (acc ++ [{ number := p.number, title := p.title }])
          { locked := out.locked, lockCalls := params :: out.lockCalls,
            err := out.err }
    else
      processPRItems env cfg rest acc

/-- The `Rate limit exceeded` warning of `processIssues` (with trailing
period). -/
def rateWarnIssues (hr : String) : String :=
  "Rate limit exceeded, stopping further processing. Please wait until " ++
    hr ++ "."

/-- The `Rate limit exceeded` warning of `processPullRequests` (the source
string has no trailing period). -/
def rateWarnPRs (hr : String) : String :=
  "Rate limit exceeded, stopping further processing. Please wait until " ++
    hr

/-- Fuel-indexed interpreter of `processIssues`.  Each call checks the
rate limit (stopping with a warning when `remaining <= rateLimitBuffer`),
fetches one page, runs the per-item loop, recurses while the page was full
(`issues.data.length === perPage`), and otherwise publishes the
`locked-issues` output.  Errors thrown by the fetch or by a lock call are
caught at batch level as `Failed to process issues: <message>`.
`none` means the fuel ran out. -/
def processIssuesLoop (env : Env) (cfg : Config) :
    ℕ → ℕ → List LockRec → Option RunOut
  | 0, _, _ => none
  | fuel + 1, page, acc =>
    let st := checkRateLimit cfg.fmt cfg.nowSec (env.rateLimit page)
    if jsLeInt st.1.remaining cfg.rateLimitBuffer then
      some { locked := acc,
             warnings := [rateWarnIssues st.1.resetTimeHumanReadable],
             failures := st.2, outputs := [], lockCalls := [],
             pagesFetched := [] }
    else
      match env.fetchError page with
      | some e =>
          some { locked := acc, warnings := [],
                 failures := st.2 ++ ["Failed to process issues: " ++ e],
                 outputs := [], lockCalls := [], pagesFetched := [page] }
      | none =>
          let items := env.pages page
          let pr := processIssueItems env cfg items acc
          match pr.err with
          | some e =>
              some { locked := pr.locked, warnings := [],
                     failures := st.2 ++ ["Failed to process issues: " ++ e],
                     outputs := [], lockCalls := pr.lockCalls,
                     pagesFetched := [page] }
          | none =>
              if items.length = cfg.perPage then
                match processIssuesLoop env cfg fuel (page + 1) pr.locked with
                | none => none
                | some r =>
                    some { locked := r.locked,
                           warnings := r.warnings,
                           failures := st.2 ++ r.failures,
                           outputs := r.outputs,
                           lockCalls := pr.lockCalls ++ r.lockCalls,
                           pagesFetched := page :: r.pagesFetched }
              else
                some { locked := pr.locked, warnings := [], failures := st.2,
                       outputs := [("locked-issues", jsonLockRecs pr.locked)],
                       lockCalls := pr.lockCalls, pagesFetched := [page] }

/-- Fuel-indexed interpreter of `processPullRequests` (same loop shape as
`processIssuesLoop`, PR-specific strings and the `locked-prs` output
key). -/
def processPRsLoop (env : Env) (cfg : Config) :
    ℕ → ℕ → List LockRec → Option RunOut
  | 0, _, _ => none
  | fuel + 1, page, acc =>
    let st := checkRateLimit cfg.fmt cfg.nowSec (env.rateLimit page)
    if jsLeInt st.1.remaining cfg.rateLimitBuffer then
      some { locked := acc,
             warnings := [rateWarnPRs st.1.resetTimeHumanReadable],
             failures := st.2, outputs := [], lockCalls := [],
             pagesFetched := [] }
    else
      match env.fetchError page with
      | some e =>
          some { locked := acc, warnings := [],
                 failures :=
                   st.2 ++ ["Failed to process pull requests: " ++ e],
                 outputs := [], lockCalls := [], pagesFetched := [page] }
      | none =>
          let items := env.pages page
          let pr := processPRItems env cfg items acc
          match pr.err with
          | some e =>
              some { locked := pr.locked, warnings := [],
                     failures :=
                       st.2 ++ ["Failed to process pull requests: " ++ e],
                     outputs := [], lockCalls := pr.lockCalls,
                     pagesFetched := [page] }
          | none =>
              if items.length = cfg.perPage then
                match processPRsLoop env cfg fuel (page + 1) pr.locked with
                | none => none
                | some r =>
                    some { locked := r.locked,
                           warnings := r.warnings,
                           failures := st.2 ++ r.failures,
                           outputs := r.outputs,
                           lockCalls := pr.lockCalls ++ r.lockCalls,
                           pagesFetched := page :: r.pagesFetched }
              else
                some { locked := pr.locked, warnings := [], failures := st.2,
                       outputs := [("locked-prs", jsonLockRecs pr.locked)],
                       lockCalls := pr.lockCalls, pagesFetched := [page] }

/-- Accumulate a list of decimal digits into a natural number. -/
def digitsToNat : List Char → ℕ → ℕ
  | [], acc => acc
  | c :: cs, acc => digitsToNat cs (acc * 10 + (c.toNat - 48))

/-- JS `parseInt(s, 10)`: skip leading whitespace, read an optional sign,
then the longest prefix of decimal digits; `NaN` (here `none`) when that
prefix is empty. -/
def parseIntJS (s : String) : Option ℤ :=
  let cs := s.data.dropWhile Char.isWhitespace
  match cs with
  | '-' :: rest =>
      let ds := rest.takeWhile Char.isDigit
      if ds.isEmpty then none else some (-(digitsToNat ds 0 : ℤ))
  | '+' :: rest =>
      let ds := rest.takeWhile Char.isDigit
      if ds.isEmpty then none else some ((digitsToNat ds 0 : ℤ))
  | other =>
      let ds := other.takeWhile Char.isDigit
      if ds.isEmpty then none else some ((digitsToNat ds 0 : ℤ))

/-- The action inputs read by `run` via `core.getInput` (always strings;
a missing input is the empty string). -/
structure Inputs where
  repoToken : String
  rateLimitBuffer : String
  daysInactiveIssues : String
  daysInactivePRs : String
  lockReasonIssues : String
  lockReasonPRs : String

/-- The remote-service environment of a whole run: the admission
rate-limit response and the environments the two category loops see. -/
structure RunEnv where
  initialRateLimit : Except String RateLimitResources
  issuesEnv : Env
  prsEnv : Env

/-- Observable result of `run`: `started = false` means the admission
check failed and neither category loop was invoked. -/
structure RunModelOut where
  warnings : List String
  failures : List String
  started : Bool
  issuesRun : Option RunOut
  prsRun : Option RunOut
deriving DecidableEq

/-- `run`: parse the inputs with `parseInt`, perform the admission
rate-limit check, and when `remaining > rateLimitBuffer` start both
category loops (with `perPage = 100`); otherwise warn
`Initial rate limit too low, stopping processing.` and do nothing else. -/
def runModel (renv : RunEnv) (inp : Inputs) (owner repo : String)
    (nowMs nowSec : ℤ) (fmt : ℤ → String) (fuel : ℕ) : RunModelOut :=
  let rateLimitBuffer := parseIntJS inp.rateLimitBuffer
  let daysInactiveIssues := parseIntJS inp.daysInactiveIssues
  let daysInactivePRs := parseIntJS inp.daysInactivePRs
  let st := checkRateLimit fmt nowSec renv.initialRateLimit
  if jsGtInt st.1.remaining rateLimitBuffer then
    { warnings := [], failures := st.2, started := true,
      issuesRun := processIssuesLoop renv.issuesEnv
        { owner := owner, repo := repo,
          daysInactive := daysInactiveIssues,
          reason := some inp.lockReasonIssues, perPage := 100,
          rateLimitBuffer := rateLimitBuffer,
          nowMs := nowMs, nowSec := nowSec, fmt := fmt } fuel 1 [],
      prsRun := processPRsLoop renv.prsEnv
        { owner := owner, repo := repo,
          daysInactive := daysInactivePRs,
          reason := some inp.lockReasonPRs, perPage := 100,
          rateLimitBuffer := rateLimitBuffer,
          nowMs := nowMs, nowSec := nowSec, fmt := fmt } fuel 1 [] }
  else
    { warnings := ["Initial rate limit too low, stopping processing."],
      failures := st.2, started := false,
      issuesRun := none, prsRun := none }

/-! ### Derived descriptions of loop behaviour -/

/-- The manifest entries one page of issues contributes when every lock
call on it succeeds. -/
def lockedRecsIssues (cfg : Config) (items : List Issue) : List LockRec :=
  (items.filter (issueEligible cfg.nowMs cfg.daysInactive)).map
    (fun i => { number := i.number, title := i.title })

/-- The lock requests one page of issues issues when every lock call on it
succeeds. -/
def lockParamsIssues (cfg : Config) (items : List Issue) : List LockParams :=
  (items.filter (issueEligible cfg.nowMs cfg.daysInactive)).map
    (fun i => mkLockParams cfg.owner cfg.repo i.number cfg.reason)

/-- The manifest entries one page of pull requests contributes when every
lock call on it succeeds. -/
def lockedRecsPRs (cfg : Config) (items : List Issue) : List LockRec :=
  (items.filter (prEligible cfg.nowMs cfg.daysInactive)).map
    (fun p => { number := p.number, title := p.title })

/-- The lock requests one page of pull requests issues when every lock
call on it succeeds. -/
def lockParamsPRs (cfg : Config) (items : List Issue) : List LockParams :=
  (items.filter (prEligible cfg.nowMs cfg.daysInactive)).map
    (fun p => mkLockParams cfg.owner cfg.repo p.number cfg.reason)

/-- Manifest entries contributed by issue pages `p, …, p + n - 1`. -/
def pagesLockedIssues (env : Env) (cfg : Config) (p n : ℕ) : List LockRec :=
  (List.range' p n).flatMap (fun j => lockedRecsIssues cfg (env.pages j))

/-- Lock requests issued on issue pages `p, …, p + n - 1`. -/
def pagesParamsIssues (env : Env) (cfg : Config) (p n : ℕ) : List LockParams :=
  (List.range' p n).flatMap (fun j => lockParamsIssues cfg (env.pages j))

/-- Manifest entries contributed by PR pages `p, …, p + n - 1`. -/
def pagesLockedPRs (env : Env) (cfg : Config) (p n : ℕ) : List LockRec :=
  (List.range' p n).flatMap (fun j => lockedRecsPRs cfg (env.pages j))

/-- Lock requests issued on PR pages `p, …, p + n - 1`. -/
def pagesParamsPRs (env : Env) (cfg : Config) (p n : ℕ) : List LockParams :=
  (List.range' p n).flatMap (fun j => lockParamsPRs cfg (env.pages j))

/-- The rate-limit status (and `setFailed` messages) computed by the check
that precedes the fetch of page `p`. -/
def pageStatus (env : Env) (cfg : Config) (p : ℕ) :
    RateLimitStatus × List String :=
  checkRateLimit cfg.fmt cfg.nowSec (env.rateLimit p)

/-- The check before page `p` lets the loop continue and reported no
failure. -/
def quotaOk (env : Env) (cfg : Config) (p : ℕ) : Prop :=
  jsLeInt (pageStatus env cfg p).1.remaining cfg.rateLimitBuffer = false ∧
    (pageStatus env cfg p).2 = []

/-! ### Concrete environments used by witnesses and counterexamples -/

/-- Page contents for the C2 counterexample: a full first page (two
closed unlocked issues) and a short second page. -/
def cex2Pages (p : ℕ) : List Issue :=
  if p = 1 then
    [{ number := 1, title := "A", updated_at := 0, pull_request := false,
       locked := false },
     { number := 2, title := "B", updated_at := 0, pull_request := false,
       locked := false }]
  else if p = 2 then
    [{ number := 3, title := "C", updated_at := 0, pull_request := false,
       locked := false }]
  else []

/-- Rate-limit resources for the C2 counterexample: the search resource
reports 50 remaining (at or below the buffer of 100) while the
general-purpose resource reports 5000. -/
def cex2Res : RateLimitResources :=
  { core := { remaining := 5000, reset := 3600 },
    search := { remaining := 50, reset := 3600 } }

/-- Environment for the C2 counterexample. -/
def cex2Env : Env :=
  { rateLimit := fun _ => Except.ok cex2Res,
    pages := cex2Pages,
    fetchError := fun _ => none,
    lockError := fun _ => none }

/-- Configuration for the C2 counterexample: buffer 100, page size 2. -/
def cex2Cfg : Config :=
  { owner := "o", repo := "r", daysInactive := some 30,
    reason := some "resolved", perPage := 2, rateLimitBuffer := some 100,
    nowMs := 2678400000, nowSec := 0, fmt := fun n => toString n }

/-- Environment for the C2 witness: the check before page 2 reports only
50 remaining on the `core` resource. -/
def wit2Env : Env :=
  { rateLimit := fun p =>
      if p = 2 then
        Except.ok { core := { remaining := 50, reset := 3600 },
                    search := { remaining := 5000, reset := 3600 } }
      else
        Except.ok { core := { remaining := 5000, reset := 3600 },
                    search := { remaining := 5000, reset := 3600 } },
    pages := cex2Pages,
    fetchError := fun _ => none,
    lockError := fun _ => none }

/-- Page contents for the C3 witness: a single short page. -/
def wit3Env : Env :=
  { rateLimit := fun _ =>
      Except.ok { core := { remaining := 5000, reset := 3600 },
                  search := { remaining := 5000, reset := 3600 } },
    pages := fun p =>
      if p = 1 then
        [{ number := 7, title := "old", updated_at := 0,
           pull_request := false, locked := false }]
      else [],
    fetchError := fun _ => none,
    lockError := fun _ => none }

/-- Configuration for the C3 witness. -/
def wit3Cfg : Config :=
  { owner := "o", repo := "r", daysInactive := some 30,
    reason := some "resolved", perPage := 2, rateLimitBuffer := some 100,
    nowMs := 2678400000, nowSec := 0, fmt := fun n => toString n }

/-- Environment for the C4 counterexample: one page with two lockable
issues; the lock request for issue 1 throws `boom`. -/
def cex4Env : Env :=
  { rateLimit := fun _ =>
      Except.ok { core := { remaining := 5000, reset := 3600 },
                  search := { remaining := 5000, reset := 3600 } },
    pages := fun p =>
      if p = 1 then
        [{ number := 1, title := "A", updated_at := 0,
           pull_request := false, locked := false },
         { number := 2, title := "B", updated_at := 0,
           pull_request := false, locked := false }]
      else [],
    fetchError := fun _ => none,
    lockError := fun n => if n = 1 then some "boom" else none }

/-- Configuration for the C4 counterexample. -/
def cex4Cfg : Config :=
  { owner := "o", repo := "r", daysInactive := some 30,
    reason := some "resolved", perPage := 100, rateLimitBuffer := some 100,
    nowMs := 2678400000, nowSec := 0, fmt := fun n => toString n }

/-- The run the C4 counterexample environment produces. -/
def cex4Out : RunOut :=
  { locked := [], warnings := [],
    failures := ["Failed to process issues: boom"],
    outputs := [],
    lockCalls := [{ owner := "o", repo := "r", issue_number := 1,
                    lock_reason := some "resolved" }],
    pagesFetched := [1] }

/-- Environment for the C5 witness: one short page holding a single fresh
(not inactive) issue, so nothing is locked. -/
def wit5Env : Env :=
  { rateLimit := fun _ =>
      Except.ok { core := { remaining := 5000, reset := 3600 },
                  search := { remaining := 5000, reset := 3600 } },
    pages := fun p =>
      if p = 1 then
        [{ number := 9, title := "fresh", updated_at := 2678400000,
           pull_request := false, locked := false }]
      else [],
    fetchError := fun _ => none,
    lockError := fun _ => none }

/-- Configuration for the C5 witness. -/
def wit5Cfg : Config :=
  { owner := "o", repo := "r", daysInactive := some 30,
    reason := some "resolved", perPage := 2, rateLimitBuffer := some 100,
    nowMs := 2678400000, nowSec := 0, fmt := fun n => toString n }

/-- The run of the C3 witness environment, used as the C7 witness run. -/
def wit7Out : RunOut :=
  { locked := [{ number := 7, title := "old" }],
    warnings := [], failures := [],
    outputs := [("locked-issues",
      "[\x7b\"number\":7,\"title\":\"old\"\x7d]")],
    lockCalls := [{ owner := "o", repo := "r", issue_number := 7,
                    lock_reason := some "resolved" }],
    pagesFetched := [1] }

/-- Inputs for the C10 witness: the rate-limit-buffer input is the empty
string. -/
def wit10Inputs : Inputs :=
  { repoToken := "t", rateLimitBuffer := "",
    daysInactiveIssues := "30", daysInactivePRs := "30",
    lockReasonIssues := "resolved", lockReasonPRs := "resolved" }

/-- Run environment for the C10 witness. -/
def wit10Env : RunEnv :=
  { initialRateLimit :=
      Except.ok { core := { remaining := 5000, reset := 3600 },
                  search := { remaining := 5000, reset := 3600 } },
    issuesEnv := wit3Env, prsEnv := wit3Env }

/-- `daysDifference` is the exact rational division of the elapsed
milliseconds by `86400000`. -/
theorem daysDifference_eq_div (nowMs updatedMs : ℤ) :
    daysDifference nowMs updatedMs = ((nowMs - updatedMs : ℤ) : ℚ) / 86400000 := by
  rw [daysDifference, Rat.divInt_eq_div]
  norm_num

/-- When every lock call on the page succeeds, the issue item loop appends
exactly the eligible items to the manifest and issues one lock request per
eligible item, throwing nothing. -/
theorem processIssueItems_ok (env : Env) (cfg : Config) :
    ∀ (items : List Issue),
    (∀ i ∈ items, issueEligible cfg.nowMs cfg.daysInactive i = true →
      env.lockError i.number = none) →
    ∀ acc, processIssueItems env cfg items acc =
      { locked := acc ++ lockedRecsIssues cfg items,
        lockCalls := lockParamsIssues cfg items, err := none } := by
  intro items
  induction items with
  | nil =>
      intro _ acc
      simp [processIssueItems, lockedRecsIssues, lockParamsIssues]
  | cons i rest ih =>
      intro h acc
      by_cases he : issueEligible cfg.nowMs cfg.daysInactive i = true
      · have hl : env.lockError i.number = none := h i (by simp) he
        rw [processIssueItems, if_pos he, hl,
          ih (fun j hj hje => h j (List.mem_cons_of_mem _ hj) hje)]
        simp [lockedRecsIssues, lockParamsIssues, List.filter_cons, he]
      · rw [processIssueItems, if_neg he,
          ih (fun j hj hje => h j (List.mem_cons_of_mem _ hj) hje)]
        simp only [lockedRecsIssues, lockParamsIssues, List.filter_cons]
        rw [if_neg (by simpa using he)]

/-- PR version of `processIssueItems_ok`. -/
theorem processPRItems_ok (env : Env) (cfg : Config) :
    ∀ (items : List Issue),
    (∀ p ∈ items, prEligible cfg.nowMs cfg.daysInactive p = true →
      env.lockError p.number = none) →
    ∀ acc, processPRItems env cfg items acc =
      { locked := acc ++ lockedRecsPRs cfg items,
        lockCalls := lockParamsPRs cfg items, err := none } := by
  intro items
  induction items with
  | nil =>
      intro _ acc
      simp [processPRItems, lockedRecsPRs, lockParamsPRs]
  | cons p rest ih =>
      intro h acc
      by_cases he : prEligible cfg.nowMs cfg.daysInactive p = true
      · have hl : env.lockError p.number = none := h p (by simp) he
        rw [processPRItems, if_pos he, hl,
          ih (fun j hj hje => h j (List.mem_cons_of_mem _ hj) hje)]
        simp [lockedRecsPRs, lockParamsPRs, List.filter_cons, he]
      · rw [processPRItems, if_neg he,
          ih (fun j hj hje => h j (List.mem_cons_of_mem _ hj) hje)]
        simp only [lockedRecsPRs, lockParamsPRs, List.filter_cons]
        rw [if_neg (by simpa using he)]

theorem pagesLockedIssues_succ (env : Env) (cfg : Config) (p n : ℕ) :
    pagesLockedIssues env cfg p (n + 1) =
      lockedRecsIssues cfg (env.pages p) ++ pagesLockedIssues env cfg (p + 1) n := by
  unfold pagesLockedIssues
  rw [List.range'_succ]
  simp

theorem pagesParamsIssues_succ (env : Env) (cfg : Config) (p n : ℕ) :
    pagesParamsIssues env cfg p (n + 1) =
      lockParamsIssues cfg (env.pages p) ++ pagesParamsIssues env cfg (p + 1) n := by
  unfold pagesParamsIssues
  rw [List.range'_succ]
  simp

theorem pagesLockedPRs_succ (env : Env) (cfg : Config) (p n : ℕ) :
    pagesLockedPRs env cfg p (n + 1) =
      lockedRecsPRs cfg (env.pages p) ++ pagesLockedPRs env cfg (p + 1) n := by
  unfold pagesLockedPRs
  rw [List.range'_succ]
  simp

theorem pagesParamsPRs_succ (env : Env) (cfg : Config) (p n : ℕ) :
    pagesParamsPRs env cfg p (n + 1) =
      lockParamsPRs cfg (env.pages p) ++ pagesParamsPRs env cfg (p + 1) n := by
  unfold pagesParamsPRs
  rw [List.range'_succ]
  simp

/-- Happy-path run of the issues loop: while the quota check admits and
every page is full the loop recurses, and it stops at the first page that
is not full, having processed every fetched page and published the
manifest. -/
theorem processIssuesLoop_run (env : Env) (cfg : Config)
    (hlock : ∀ n, env.lockError n = none) :
    ∀ d p,
    (∀ j, p ≤ j → j ≤ p + d → quotaOk env cfg j ∧ env.fetchError j = none) →
    (∀ j, p ≤ j → j < p + d → (env.pages j).length = cfg.perPage) →
    (env.pages (p + d)).length ≠ cfg.perPage →
    ∀ acc fuel, d + 1 ≤ fuel →
    processIssuesLoop env cfg fuel p acc = some
      { locked := acc ++ pagesLockedIssues env cfg p (d + 1),
        warnings := [], failures := [],
        outputs := [("locked-issues",
          jsonLockRecs (acc ++ pagesLockedIssues env cfg p (d + 1)))],
        lockCalls := pagesParamsIssues env cfg p (d + 1),
        pagesFetched := List.range' p (d + 1) } := by
  intro d
  induction d with
  | zero =>
      intro p hq hfull hshort acc fuel hfuel
      obtain ⟨f, rfl⟩ : ∃ f, fuel = f + 1 := ⟨fuel - 1, by omega⟩
      obtain ⟨⟨hguard, hfail⟩, hfe⟩ := hq p le_rfl (by omega)
      simp only [quotaOk, pageStatus] at hguard hfail
      rw [processIssuesLoop]
      simp only [hguard, hfe, Bool.false_eq_true, if_false,
        processIssueItems_ok env cfg (env.pages p)
          (fun i _ _ => hlock i.number) acc]
      rw [if_neg (by simpa using hshort)]
      simp [pagesLockedIssues, pagesParamsIssues, List.range'_one, hfail]
  | succ d ih =>
      intro p hq hfull hshort acc fuel hfuel
      obtain ⟨f, rfl⟩ : ∃ f, fuel = f + 1 := ⟨fuel - 1, by omega⟩
      obtain ⟨⟨hguard, hfail⟩, hfe⟩ := hq p le_rfl (by omega)
      simp only [quotaOk, pageStatus] at hguard hfail
      have hshort2 : (env.pages (p + 1 + d)).length ≠ cfg.perPage := by
        have h : p + 1 + d = p + (d + 1) := by omega
        rw [h]; exact hshort
      have hrec := ih (p + 1)
        (fun j h1 h2 => hq j (by omega) (by omega))
        (fun j h1 h2 => hfull j (by omega) (by omega))
        hshort2
        (acc ++ lockedRecsIssues cfg (env.pages p)) f (by omega)
      rw [processIssuesLoop]
      simp only [hguard, hfe, Bool.false_eq_true, if_false,
        processIssueItems_ok env cfg (env.pages p)
          (fun i _ _ => hlock i.number) acc]
      rw [if_pos (hfull p le_rfl (by omega)), hrec]
      dsimp only
      simp [pagesLockedIssues_succ, pagesParamsIssues_succ, List.range'_succ,
        hfail, List.append_assoc]

/-- Early stop of the issues loop: when the rate-limit check before page
`p + d` reports `remaining <= rateLimitBuffer`, the loop stops there with
a warning, keeping every item locked on the pages fetched so far (a valid
partial result, with no `setFailed` reported by the loop itself). -/
theorem processIssuesLoop_quota_stop (env : Env) (cfg : Config)
    (hlock : ∀ n, env.lockError n = none) :
    ∀ d p,
    (∀ j, p ≤ j → j < p + d → quotaOk env cfg j ∧ env.fetchError j = none ∧
      (env.pages j).length = cfg.perPage) →
    jsLeInt (pageStatus env cfg (p + d)).1.remaining cfg.rateLimitBuffer = true →
    ∀ acc fuel, d + 1 ≤ fuel →
    processIssuesLoop env cfg fuel p acc = some
      { locked := acc ++ pagesLockedIssues env cfg p d,
        warnings :=
          [rateWarnIssues (pageStatus env cfg (p + d)).1.resetTimeHumanReadable],
        failures := (pageStatus env cfg (p + d)).2,
        outputs := [], lockCalls := pagesParamsIssues env cfg p d,
        pagesFetched := List.range' p d } := by
  intro d
  induction d with
  | zero =>
      intro p hpre hstop acc fuel hfuel
      obtain ⟨f, rfl⟩ : ∃ f, fuel = f + 1 := ⟨fuel - 1, by omega⟩
      simp only [pageStatus, Nat.add_zero] at hstop
      rw [processIssuesLoop]
      simp only [hstop, if_true]
      simp [pagesLockedIssues, pagesParamsIssues, pageStatus, rateWarnIssues]
  | succ d ih =>
      intro p hpre hstop acc fuel hfuel
      obtain ⟨f, rfl⟩ : ∃ f, fuel = f + 1 := ⟨fuel - 1, by omega⟩
      obtain ⟨⟨hguard, hfail⟩, hfe, hfullp⟩ := hpre p le_rfl (by omega)
      simp only [quotaOk, pageStatus] at hguard hfail
      have hstop2 :
          jsLeInt (pageStatus env cfg (p + 1 + d)).1.remaining
            cfg.rateLimitBuffer = true := by
        have h : p + 1 + d = p + (d + 1) := by omega
        rw [h]; exact hstop
      have hrec := ih (p + 1)
        (fun j h1 h2 => hpre j (by omega) (by omega))
        hstop2
        (acc ++ lockedRecsIssues cfg (env.pages p)) f (by omega)
      rw [processIssuesLoop]
      simp only [hguard, hfe, Bool.false_eq_true, if_false,
        processIssueItems_ok env cfg (env.pages p)
          (fun i _ _ => hlock i.number) acc]
      rw [if_pos hfullp, hrec]
      dsimp only
      have h : p + 1 + d = p + (d + 1) := by omega
      simp [pagesLockedIssues_succ, pagesParamsIssues_succ, List.range'_succ,
        hfail, List.append_assoc, h]

/-- Happy-path run of the pull-request loop (PR analogue of
`processIssuesLoop_run`). -/
theorem processPRsLoop_run (env : Env) (cfg : Config)
    (hlock : ∀ n, env.lockError n = none) :
    ∀ d p,
    (∀ j, p ≤ j → j ≤ p + d → quotaOk env cfg j ∧ env.fetchError j = none) →
    (∀ j, p ≤ j → j < p + d → (env.pages j).length = cfg.perPage) →
    (env.pages (p + d)).length ≠ cfg.perPage →
    ∀ acc fuel, d + 1 ≤ fuel →
    processPRsLoop env cfg fuel p acc = some
      { locked := acc ++ pagesLockedPRs env cfg p (d + 1),
        warnings := [], failures := [],
        outputs := [("locked-prs",
          jsonLockRecs (acc ++ pagesLockedPRs env cfg p (d + 1)))],
        lockCalls := pagesParamsPRs env cfg p (d + 1),
        pagesFetched := List.range' p (d + 1) } := by
  intro d
  induction d with
  | zero =>
      intro p hq hfull hshort acc fuel hfuel
      obtain ⟨f, rfl⟩ : ∃ f, fuel = f + 1 := ⟨fuel - 1, by omega⟩
      obtain ⟨⟨hguard, hfail⟩, hfe⟩ := hq p le_rfl (by omega)
      simp only [quotaOk, pageStatus] at hguard hfail
      rw [processPRsLoop]
      simp only [hguard, hfe, Bool.false_eq_true, if_false,
        processPRItems_ok env cfg (env.pages p)
          (fun i _ _ => hlock i.number) acc]
      rw [if_neg (by simpa using hshort)]
      simp [pagesLockedPRs, pagesParamsPRs, List.range'_one, hfail]
  | succ d ih =>
      intro p hq hfull hshort acc fuel hfuel
      obtain ⟨f, rfl⟩ : ∃ f, fuel = f + 1 := ⟨fuel - 1, by omega⟩
      obtain ⟨⟨hguard, hfail⟩, hfe⟩ := hq p le_rfl (by omega)
      simp only [quotaOk, pageStatus] at hguard hfail
      have hshort2 : (env.pages (p + 1 + d)).length ≠ cfg.perPage := by
        have h : p + 1 + d = p + (d + 1) := by omega
        rw [h]; exact hshort
      have hrec := ih (p + 1)
        (fun j h1 h2 => hq j (by omega) (by omega))
        (fun j h1 h2 => hfull j (by omega) (by omega))
        hshort2
        (acc ++ lockedRecsPRs cfg (env.pages p)) f (by omega)
      rw [processPRsLoop]
      simp only [hguard, hfe, Bool.false_eq_true, if_false,
        processPRItems_ok env cfg (env.pages p)
          (fun i _ _ => hlock i.number) acc]
      rw [if_pos (hfull p le_rfl (by omega)), hrec]
      dsimp only
      simp [pagesLockedPRs_succ, pagesParamsPRs_succ, List.range'_succ,
        hfail, List.append_assoc]

/-- Early stop of the pull-request loop (PR analogue of
`processIssuesLoop_quota_stop`; note the PR warning string). -/
theorem processPRsLoop_quota_stop (env : Env) (cfg : Config)
    (hlock : ∀ n, env.lockError n = none) :
    ∀ d p,
    (∀ j, p ≤ j → j < p + d → quotaOk env cfg j ∧ env.fetchError j = none ∧
      (env.pages j).length = cfg.perPage) →
    jsLeInt (pageStatus env cfg (p + d)).1.remaining cfg.rateLimitBuffer = true →
    ∀ acc fuel, d + 1 ≤ fuel →
    processPRsLoop env cfg fuel p acc = some
      { locked := acc ++ pagesLockedPRs env cfg p d,
        warnings :=
          [rateWarnPRs (pageStatus env cfg (p + d)).1.resetTimeHumanReadable],
        failures := (pageStatus env cfg (p + d)).2,
        outputs := [], lockCalls := pagesParamsPRs env cfg p d,
        pagesFetched := List.range' p d } := by
  intro d
  induction d with
  | zero =>
      intro p hpre hstop acc fuel hfuel
      obtain ⟨f, rfl⟩ : ∃ f, fuel = f + 1 := ⟨fuel - 1, by omega⟩
      simp only [pageStatus, Nat.add_zero] at hstop
      rw [processPRsLoop]
      simp only [hstop, if_true]
      simp [pagesLockedPRs, pagesParamsPRs, pageStatus, rateWarnPRs]
  | succ d ih =>
      intro p hpre hstop acc fuel hfuel
      obtain ⟨f, rfl⟩ : ∃ f, fuel = f + 1 := ⟨fuel - 1, by omega⟩
      obtain ⟨⟨hguard, hfail⟩, hfe, hfullp⟩ := hpre p le_rfl (by omega)
      simp only [quotaOk, pageStatus] at hguard hfail
      have hstop2 :
          jsLeInt (pageStatus env cfg (p + 1 + d)).1.remaining
            cfg.rateLimitBuffer = true := by
        have h : p + 1 + d = p + (d + 1) := by omega
        rw [h]; exact hstop
      have hrec := ih (p + 1)
        (fun j h1 h2 => hpre j (by omega) (by omega))
        hstop2
        (acc ++ lockedRecsPRs cfg (env.pages p)) f (by omega)
      rw [processPRsLoop]
      simp only [hguard, hfe, Bool.false_eq_true, if_false,
        processPRItems_ok env cfg (env.pages p)
          (fun i _ _ => hlock i.number) acc]
      rw [if_pos hfullp, hrec]
      dsimp only
      have h : p + 1 + d = p + (d + 1) := by omega
      simp [pagesLockedPRs_succ, pagesParamsPRs_succ, List.range'_succ,
        hfail, List.append_assoc, h]

/-- When the lock call for `bad` throws `e` (and the lock calls on the
items before it succeed), the issue item loop stops at `bad`: the items
after it contribute no lock request and no manifest entry, and the error
propagates to the surrounding `try`. -/
theorem processIssueItems_fail (env : Env) (cfg : Config) (e : String) :
    ∀ (pre : List Issue) (bad : Issue) (post : List Issue)
      (acc : List LockRec),
    (∀ i ∈ pre, issueEligible cfg.nowMs cfg.daysInactive i = true →
      env.lockError i.number = none) →
    issueEligible cfg.nowMs cfg.daysInactive bad = true →
    env.lockError bad.number = some e →
    processIssueItems env cfg (pre ++ bad :: post) acc =
      { locked := acc ++ lockedRecsIssues cfg pre,
        lockCalls := lockParamsIssues cfg pre ++
          [mkLockParams cfg.owner cfg.repo bad.number cfg.reason],
        err := some e } := by
  intro pre
  induction pre with
  | nil =>
      intro bad post acc _ hbe hberr
      simp only [List.nil_append]
      rw [processIssueItems, if_pos hbe, hberr]
      simp [lockedRecsIssues, lockParamsIssues]
  | cons i rest ih =>
      intro bad post acc h hbe hberr
      by_cases he : issueEligible cfg.nowMs cfg.daysInactive i = true
      · have hl : env.lockError i.number = none := h i (by simp) he
        rw [List.cons_append, processIssueItems, if_pos he, hl,
          ih bad post _ (fun j hj hje => h j (List.mem_cons_of_mem _ hj) hje)
            hbe hberr]
        simp [lockedRecsIssues, lockParamsIssues, List.filter_cons, he,
          List.append_assoc]
      · rw [List.cons_append, processIssueItems, if_neg he,
          ih bad post acc (fun j hj hje => h j (List.mem_cons_of_mem _ hj) hje)
            hbe hberr]
        simp only [lockedRecsIssues, lockParamsIssues, List.filter_cons]
        rw [if_neg (by simpa using he)]

/-- PR analogue of `processIssueItems_fail`. -/
theorem processPRItems_fail (env : Env) (cfg : Config) (e : String) :
    ∀ (pre : List Issue) (bad : Issue) (post : List Issue)
      (acc : List LockRec),
    (∀ i ∈ pre, prEligible cfg.nowMs cfg.daysInactive i = true →
      env.lockError i.number = none) →
    prEligible cfg.nowMs cfg.daysInactive bad = true →
    env.lockError bad.number = some e →
    processPRItems env cfg (pre ++ bad :: post) acc =
      { locked := acc ++ lockedRecsPRs cfg pre,
        lockCalls := lockParamsPRs cfg pre ++
          [mkLockParams cfg.owner cfg.repo bad.number cfg.reason],
        err := some e } := by
  intro pre
  induction pre with
  | nil =>
      intro bad post acc _ hbe hberr
      simp only [List.nil_append]
      rw [processPRItems, if_pos hbe, hberr]
      simp [lockedRecsPRs, lockParamsPRs]
  | cons i rest ih =>
      intro bad post acc h hbe hberr
      by_cases he : prEligible cfg.nowMs cfg.daysInactive i = true
      · have hl : env.lockError i.number = none := h i (by simp) he
        rw [List.cons_append, processPRItems, if_pos he, hl,
          ih bad post _ (fun j hj hje => h j (List.mem_cons_of_mem _ hj) hje)
            hbe hberr]
        simp [lockedRecsPRs, lockParamsPRs, List.filter_cons, he,
          List.append_assoc]
      · rw [List.cons_append, processPRItems, if_neg he,
          ih bad post acc (fun j hj hje => h j (List.mem_cons_of_mem _ hj) hje)
            hbe hberr]
        simp only [lockedRecsPRs, lockParamsPRs, List.filter_cons]
        rw [if_neg (by simpa using he)]

/-- When a lock call throws on page `p`, `processIssues` catches the error
at batch level: it reports `Failed to process issues: <message>`, keeps
only the manifest entries locked before the failure, issues no lock
request for the items after the failing one, fetches no further page and
publishes no output. -/
theorem processIssuesLoop_lock_fail (env : Env) (cfg : Config) (e : String)
    (p : ℕ) (pre : List Issue) (bad : Issue) (post : List Issue)
    (hq : quotaOk env cfg p) (hfe : env.fetchError p = none)
    (hpage : env.pages p = pre ++ bad :: post)
    (hpre : ∀ i ∈ pre, issueEligible cfg.nowMs cfg.daysInactive i = true →
      env.lockError i.number = none)
    (hbe : issueEligible cfg.nowMs cfg.daysInactive bad = true)
    (hberr : env.lockError bad.number = some e) :
    ∀ acc fuel, 1 ≤ fuel →
    processIssuesLoop env cfg fuel p acc = some
      { locked := acc ++ lockedRecsIssues cfg pre,
        warnings := [],
        failures := ["Failed to process issues: " ++ e],
        outputs := [],
        lockCalls := lockParamsIssues cfg pre ++
          [mkLockParams cfg.owner cfg.repo bad.number cfg.reason],
        pagesFetched := [p] } := by
  intro acc fuel hfuel
  obtain ⟨f, rfl⟩ : ∃ f, fuel = f + 1 := ⟨fuel - 1, by omega⟩
  obtain ⟨hguard, hfail⟩ := hq
  simp only [pageStatus] at hguard hfail
  rw [processIssuesLoop]
  simp only [hguard, Bool.false_eq_true, if_false, hfe, hpage,
    processIssueItems_fail env cfg e pre bad post acc hpre hbe hberr]
  simp [hfail]

/-- PR analogue of `processIssuesLoop_lock_fail`: the batch-level report
is `Failed to process pull requests: <message>`. -/
theorem processPRsLoop_lock_fail (env : Env) (cfg : Config) (e : String)
    (p : ℕ) (pre : List Issue) (bad : Issue) (post : List Issue)
    (hq : quotaOk env cfg p) (hfe : env.fetchError p = none)
    (hpage : env.pages p = pre ++ bad :: post)
    (hpre : ∀ i ∈ pre, prEligible cfg.nowMs cfg.daysInactive i = true →
      env.lockError i.number = none)
    (hbe : prEligible cfg.nowMs cfg.daysInactive bad = true)
    (hberr : env.lockError bad.number = some e) :
    ∀ acc fuel, 1 ≤ fuel →
    processPRsLoop env cfg fuel p acc = some
      { locked := acc ++ lockedRecsPRs cfg pre,
        warnings := [],
        failures := ["Failed to process pull requests: " ++ e],
        outputs := [],
        lockCalls := lockParamsPRs cfg pre ++
          [mkLockParams cfg.owner cfg.repo bad.number cfg.reason],
        pagesFetched := [p] } := by
  intro acc fuel hfuel
  obtain ⟨f, rfl⟩ : ∃ f, fuel = f + 1 := ⟨fuel - 1, by omega⟩
  obtain ⟨hguard, hfail⟩ := hq
  simp only [pageStatus] at hguard hfail
  rw [processPRsLoop]
  simp only [hguard, Bool.false_eq_true, if_false, hfe, hpage,
    processPRItems_fail env cfg e pre bad post acc hpre hbe hberr]
  simp [hfail]

/-- Every entry the issue item loop adds to the manifest was pushed after
a lock call that did not throw: the item's lock error is `none` and a lock
request with its number was issued. -/
theorem processIssueItems_locked_mem (env : Env) (cfg : Config) :
    ∀ (items : List Issue) (acc : List LockRec) (rec : LockRec),
    rec ∈ (processIssueItems env cfg items acc).locked →
    rec ∈ acc ∨ (env.lockError rec.number = none ∧
      ∃ c ∈ (processIssueItems env cfg items acc).lockCalls,
        c.issue_number = rec.number) := by
  intro items
  induction items with
  | nil =>
      intro acc rec h
      simp only [processIssueItems] at h
      exact Or.inl h
  | cons i rest ih =>
      intro acc rec h
      by_cases he : issueEligible cfg.nowMs cfg.daysInactive i = true
      · rw [processIssueItems, if_pos he] at h ⊢
        cases hle : env.lockError i.number with
        | some e =>
            rw [hle] at h
            dsimp only at h ⊢
            exact Or.inl h
        | none =>
            rw [hle] at h
            dsimp only at h ⊢
            rcases ih (acc ++ [{ number := i.number, title := i.title }]) rec h
              with hmem | ⟨hln, c, hc, hcn⟩
            · rcases List.mem_append.1 hmem with h1 | h2
              · exact Or.inl h1
              · right
                have hrec : rec = { number := i.number, title := i.title } := by
                  simpa using h2
                subst hrec
                refine ⟨hle, mkLockParams cfg.owner cfg.repo i.number cfg.reason,
                  List.mem_cons_self _ _, rfl⟩
            · exact Or.inr ⟨hln, c, List.mem_cons_of_mem _ hc, hcn⟩
      · rw [processIssueItems, if_neg he] at h ⊢
        exact ih acc rec h

/-- PR analogue of `processIssueItems_locked_mem`. -/
theorem processPRItems_locked_mem (env : Env) (cfg : Config) :
    ∀ (items : List Issue) (acc : List LockRec) (rec : LockRec),
    rec ∈ (processPRItems env cfg items acc).locked →
    rec ∈ acc ∨ (env.lockError rec.number = none ∧
      ∃ c ∈ (processPRItems env cfg items acc).lockCalls,
        c.issue_number = rec.number) := by
  intro items
  induction items with
  | nil =>
      intro acc rec h
      simp only [processPRItems] at h
      exact Or.inl h
  | cons i rest ih =>
      intro acc rec h
      by_cases he : prEligible cfg.nowMs cfg.daysInactive i = true
      · rw [processPRItems, if_pos he] at h ⊢
        cases hle : env.lockError i.number with
        | some e =>
            rw [hle] at h
            dsimp only at h ⊢
            exact Or.inl h
        | none =>
            rw [hle] at h
            dsimp only at h ⊢
            rcases ih (acc ++ [{ number := i.number, title := i.title }]) rec h
              with hmem | ⟨hln, c, hc, hcn⟩
            · rcases List.mem_append.1 hmem with h1 | h2
              · exact Or.inl h1
              · right
                have hrec : rec = { number := i.number, title := i.title } := by
                  simpa using h2
                subst hrec
                refine ⟨hle, mkLockParams cfg.owner cfg.repo i.number cfg.reason,
                  List.mem_cons_self _ _, rfl⟩
            · exact Or.inr ⟨hln, c, List.mem_cons_of_mem _ hc, hcn⟩
      · rw [processPRItems, if_neg he] at h ⊢
        exact ih acc rec h

/-- Every manifest entry of a completed issues run either was already in
the starting accumulator or was pushed after a lock call for its number
that did not throw. -/
theorem processIssuesLoop_locked_mem (env : Env) (cfg : Config) :
    ∀ (fuel page : ℕ) (acc : List LockRec) (r : RunOut),
    processIssuesLoop env cfg fuel page acc = some r →
    ∀ rec ∈ r.locked, rec ∈ acc ∨ (env.lockError rec.number = none ∧
      ∃ c ∈ r.lockCalls, c.issue_number = rec.number) := by
  intro fuel
  induction fuel with
  | zero =>
      intro page acc r h
      simp [processIssuesLoop] at h
  | succ f ih =>
      intro page acc r h rec hrec
      rw [processIssuesLoop] at h
      dsimp only at h
      split at h
      · cases h
        exact Or.inl hrec
      · split at h
        · cases h
          exact Or.inl hrec
        · split at h
          · cases h
            rcases processIssueItems_locked_mem env cfg (env.pages page) acc rec
              (by simpa using hrec) with h1 | ⟨hln, c, hc, hcn⟩
            · exact Or.inl h1
            · exact Or.inr ⟨hln, c, by simpa using hc, hcn⟩
          · split at h
            · split at h
              · cases h
              · rename_i r' heq
                cases h
                rcases ih (page + 1) _ r' heq rec (by simpa using hrec)
                  with hmem | ⟨hln, c, hc, hcn⟩
                · rcases processIssueItems_locked_mem env cfg (env.pages page)
                    acc rec hmem with h1 | ⟨hln, c, hc, hcn⟩
                  · exact Or.inl h1
                  · exact Or.inr ⟨hln, c,
                      by simp [List.mem_append]; exact Or.inl hc, hcn⟩
                · exact Or.inr ⟨hln, c,
                    by simp [List.mem_append]; exact Or.inr hc, hcn⟩
            · cases h
              rcases processIssueItems_locked_mem env cfg (env.pages page) acc
                rec (by simpa using hrec) with h1 | ⟨hln, c, hc, hcn⟩
              · exact Or.inl h1
              · exact Or.inr ⟨hln, c, by simpa using hc, hcn⟩

/-- PR analogue of `processIssuesLoop_locked_mem`. -/
theorem processPRsLoop_locked_mem (env : Env) (cfg : Config) :
    ∀ (fuel page : ℕ) (acc : List LockRec) (r : RunOut),
    processPRsLoop env cfg fuel page acc = some r →
    ∀ rec ∈ r.locked, rec ∈ acc ∨ (env.lockError rec.number = none ∧
      ∃ c ∈ r.lockCalls, c.issue_number = rec.number) := by
  intro fuel
  induction fuel with
  | zero =>
      intro page acc r h
      simp [processPRsLoop] at h
  | succ f ih =>
      intro page acc r h rec hrec
      rw [processPRsLoop] at h
      dsimp only at h
      split at h
      · cases h
        exact Or.inl hrec
      · split at h
        · cases h
          exact Or.inl hrec
        · split at h
          · cases h
            rcases processPRItems_locked_mem env cfg (env.pages page) acc rec
              (by simpa using hrec) with h1 | ⟨hln, c, hc, hcn⟩
            · exact Or.inl h1
            · exact Or.inr ⟨hln, c, by simpa using hc, hcn⟩
          · split at h
            · split at h
              · cases h
              · rename_i r' heq
                cases h
                rcases ih (page + 1) _ r' heq rec (by simpa using hrec)
                  with hmem | ⟨hln, c, hc, hcn⟩
                · rcases processPRItems_locked_mem env cfg (env.pages page)
                    acc rec hmem with h1 | ⟨hln, c, hc, hcn⟩
                  · exact Or.inl h1
                  · exact Or.inr ⟨hln, c,
                      by simp [List.mem_append]; exact Or.inl hc, hcn⟩
                · exact Or.inr ⟨hln, c,
                    by simp [List.mem_append]; exact Or.inr hc, hcn⟩
            · cases h
              rcases processPRItems_locked_mem env cfg (env.pages page) acc
                rec (by simpa using hrec) with h1 | ⟨hln, c, hc, hcn⟩
              · exact Or.inl h1
              · exact Or.inr ⟨hln, c, by simpa using hc, hcn⟩

/-! ### Claim theorems -/

/-- Claim C1: for every thread the processor examines for locking (an
issue that carries no `pull_request` field and is not locked, or a pull
request that is not locked) and every threshold `T`, the thread is locked
iff `(now - updatedAt) / 86400000 > T`, with the division exact and the
comparison strict, so a thread whose elapsed inactivity is exactly `T`
days is not locked. -/
theorem claim1_strict_threshold (nowMs t : ℤ) (days : Option ℤ)
    (hT : days = some t) (i : Issue)
    (hpr : i.pull_request = false) (hl : i.locked = false) :
    (issueEligible nowMs days i = true ↔
      daysDifference nowMs i.updated_at > (t : ℚ)) ∧
    (prEligible nowMs days i = true ↔
      daysDifference nowMs i.updated_at > (t : ℚ)) ∧
    (daysDifference nowMs i.updated_at = (t : ℚ) →
      issueEligible nowMs days i = false ∧ prEligible nowMs days i = false) ∧
    daysDifference nowMs i.updated_at =
      ((nowMs - i.updated_at : ℤ) : ℚ) / 86400000 := by
  subst hT
  refine ⟨?_, ?_, ?_, daysDifference_eq_div nowMs i.updated_at⟩
  · simp [issueEligible, jsGtRat, hpr, hl, GT.gt]
  · simp [prEligible, jsGtRat, hl, GT.gt]
  · intro he
    constructor
    · simp [issueEligible, jsGtRat, hpr, hl, he]
    · simp [prEligible, jsGtRat, hl, he]

/-- Concrete instance of `claim1_strict_threshold`: at threshold 30 days,
a thread inactive for 31 days is locked and a thread inactive for exactly
30 days is not. -/
theorem claim1_strict_threshold_witness :
    issueEligible 2678400000 (some 30)
      { number := 1, title := "A", updated_at := 0, pull_request := false,
        locked := false } = true ∧
    issueEligible 2592000000 (some 30)
      { number := 1, title := "A", updated_at := 0, pull_request := false,
        locked := false } = false := by
  constructor
  · exact (claim1_strict_threshold 2678400000 30 (some 30) rfl
      { number := 1, title := "A", updated_at := 0, pull_request := false,
        locked := false } rfl rfl).1.mpr (by decide)
  · exact ((claim1_strict_threshold 2592000000 30 (some 30) rfl
      { number := 1, title := "A", updated_at := 0, pull_request := false,
        locked := false } rfl rfl).2.2.1 (by decide)).1

/-- Counterexample to claim C2: the quota check between pages reads the
general-purpose (`core`) resource, not the search resource.  With
buffer = 100 and the search resource reporting remaining = 50 at every
check, the claim predicts that fetching stops after the first page; the
code continues (because `core` reports 5000) and fetches the second page
as well. -/
theorem claim2_counterexample :
    cex2Res.search.remaining = 50 ∧
    cex2Cfg.rateLimitBuffer = some 100 ∧
    cex2Res.search.remaining ≤ 100 ∧
    (cex2Pages 1).length = cex2Cfg.perPage ∧
    (processIssuesLoop cex2Env cex2Cfg 3 1 []).map RunOut.pagesFetched =
      some [1, 2] := by decide

/-- Claim C2 as amended: the quota check performed between pages of the
fetch loop queries the general-purpose (`core`) resource; when that
resource reports remaining at or below the buffer at the check after the
first (full) page — e.g. remaining = 50 against buffer = 100 — fetching
stops after that first page even though more pages exist, and the warning
names the (human-readable) reset time of that resource. -/
theorem claim2_core_resource_guard (env : Env) (cfg : Config)
    (hlock : ∀ n, env.lockError n = none)
    (hq1 : quotaOk env cfg 1) (hfe1 : env.fetchError 1 = none)
    (hfull1 : (env.pages 1).length = cfg.perPage)
    (r2 : RateLimitResources) (hr2 : env.rateLimit 2 = Except.ok r2)
    (hb : cfg.rateLimitBuffer = some 100) (hrem : r2.core.remaining = 50) :
    (∀ (fmt : ℤ → String) (nowSec : ℤ) (r : RateLimitResources),
      (checkRateLimit fmt nowSec (Except.ok r)).1.remaining =
        r.core.remaining) ∧
    ∀ fuel, 2 ≤ fuel →
    processIssuesLoop env cfg fuel 1 [] = some
      { locked := lockedRecsIssues cfg (env.pages 1),
        warnings := [rateWarnIssues (cfg.fmt (r2.core.reset * 1000))],
        failures := [], outputs := [],
        lockCalls := lockParamsIssues cfg (env.pages 1),
        pagesFetched := [1] } := by
  refine ⟨fun fmt nowSec r => rfl, fun fuel hfuel => ?_⟩
  have hstop :
      jsLeInt (pageStatus env cfg (1 + 1)).1.remaining
        cfg.rateLimitBuffer = true := by
    simp [pageStatus, hr2, checkRateLimit, hb, hrem, jsLeInt]
  have h := processIssuesLoop_quota_stop env cfg hlock 1 1
    (fun j h1 h2 => by
      have hj : j = 1 := by omega
      subst hj
      exact ⟨hq1, hfe1, hfull1⟩)
    hstop [] fuel hfuel
  rw [h]
  have hps : pageStatus env cfg (1 + 1) =
      checkRateLimit cfg.fmt cfg.nowSec (Except.ok r2) := by
    rw [pageStatus, hr2]
  rw [hps]
  simp [checkRateLimit, pagesLockedIssues, pagesParamsIssues,
    List.range'_one]

/-- Concrete instance of `claim2_core_resource_guard`: with buffer 100 and
the core resource reporting 50 before page 2, the loop stops having
fetched only page 1 and the warning names the formatted reset time. -/
theorem claim2_core_resource_guard_witness :
    processIssuesLoop wit2Env cex2Cfg 2 1 [] = some
      { locked := [{ number := 1, title := "A" },
                   { number := 2, title := "B" }],
        warnings := ["Rate limit exceeded, stopping further processing. Please wait until 3600000."],
        failures := [], outputs := [],
        lockCalls :=
          [{ owner := "o", repo := "r", issue_number := 1,
             lock_reason := some "resolved" },
           { owner := "o", repo := "r", issue_number := 2,
             lock_reason := some "resolved" }],
        pagesFetched := [1] } := by
  rw [(claim2_core_resource_guard wit2Env cex2Cfg (fun n => rfl)
      ⟨by decide, rfl⟩ rfl (by decide)
      { core := { remaining := 50, reset := 3600 },
        search := { remaining := 5000, reset := 3600 } } rfl rfl rfl).2
    2 (by decide)]
  decide

/-- Claim C3: both paginated loops terminate on every finite page
sequence.  If, after `d` full pages, page `1 + d` is not full, the loop
stops there having processed every fetched page (the manifest collects the
eligible items of all `d + 1` fetched pages); and if the quota check
before page `1 + d` reports remaining at or below the buffer, the loop
stops early with the items of the `d` fetched pages as a valid, non-error
partial result. -/
theorem claim3_loop_terminates :
    (∀ (env : Env) (cfg : Config), (∀ n, env.lockError n = none) → ∀ d,
      (∀ j, 1 ≤ j → j ≤ 1 + d → quotaOk env cfg j ∧ env.fetchError j = none) →
      (∀ j, 1 ≤ j → j < 1 + d → (env.pages j).length = cfg.perPage) →
      (env.pages (1 + d)).length ≠ cfg.perPage →
      ∃ r : RunOut,
        (∀ fuel, d + 1 ≤ fuel →
          processIssuesLoop env cfg fuel 1 [] = some r) ∧
        r.locked = pagesLockedIssues env cfg 1 (d + 1) ∧
        r.pagesFetched = List.range' 1 (d + 1) ∧ r.failures = []) ∧
    (∀ (env : Env) (cfg : Config), (∀ n, env.lockError n = none) → ∀ d,
      (∀ j, 1 ≤ j → j < 1 + d → quotaOk env cfg j ∧ env.fetchError j = none ∧
        (env.pages j).length = cfg.perPage) →
      jsLeInt (pageStatus env cfg (1 + d)).1.remaining
        cfg.rateLimitBuffer = true →
      (pageStatus env cfg (1 + d)).2 = [] →
      ∃ r : RunOut,
        (∀ fuel, d + 1 ≤ fuel →
          processIssuesLoop env cfg fuel 1 [] = some r) ∧
        r.locked = pagesLockedIssues env cfg 1 d ∧
        r.pagesFetched = List.range' 1 d ∧ r.failures = []) ∧
    (∀ (env : Env) (cfg : Config), (∀ n, env.lockError n = none) → ∀ d,
      (∀ j, 1 ≤ j → j ≤ 1 + d → quotaOk env cfg j ∧ env.fetchError j = none) →
      (∀ j, 1 ≤ j → j < 1 + d → (env.pages j).length = cfg.perPage) →
      (env.pages (1 + d)).length ≠ cfg.perPage →
      ∃ r : RunOut,
        (∀ fuel, d + 1 ≤ fuel → processPRsLoop env cfg fuel 1 [] = some r) ∧
        r.locked = pagesLockedPRs env cfg 1 (d + 1) ∧
        r.pagesFetched = List.range' 1 (d + 1) ∧ r.failures = []) ∧
    (∀ (env : Env) (cfg : Config), (∀ n, env.lockError n = none) → ∀ d,
      (∀ j, 1 ≤ j → j < 1 + d → quotaOk env cfg j ∧ env.fetchError j = none ∧
        (env.pages j).length = cfg.perPage) →
      jsLeInt (pageStatus env cfg (1 + d)).1.remaining
        cfg.rateLimitBuffer = true →
      (pageStatus env cfg (1 + d)).2 = [] →
      ∃ r : RunOut,
        (∀ fuel, d + 1 ≤ fuel → processPRsLoop env cfg fuel 1 [] = some r) ∧
        r.locked = pagesLockedPRs env cfg 1 d ∧
        r.pagesFetched = List.range' 1 d ∧ r.failures = []) := by
  refine ⟨?_, ?_, ?_, ?_⟩
  · intro env cfg hlock d hq hfull hshort
    exact ⟨_, fun fuel hf =>
      processIssuesLoop_run env cfg hlock d 1 hq hfull hshort [] fuel hf,
      by simp, rfl, rfl⟩
  · intro env cfg hlock d hpre hstop hok
    refine ⟨_, fun fuel hf =>
      processIssuesLoop_quota_stop env cfg hlock d 1 hpre hstop [] fuel hf,
      by simp, rfl, by simpa using hok⟩
  · intro env cfg hlock d hq hfull hshort
    exact ⟨_, fun fuel hf =>
      processPRsLoop_run env cfg hlock d 1 hq hfull hshort [] fuel hf,
      by simp, rfl, rfl⟩
  · intro env cfg hlock d hpre hstop hok
    refine ⟨_, fun fuel hf =>
      processPRsLoop_quota_stop env cfg hlock d 1 hpre hstop [] fuel hf,
      by simp, rfl, by simpa using hok⟩

/-- Concrete instance of `claim3_loop_terminates`: a one-page sequence
terminates with that page processed. -/
theorem claim3_loop_terminates_witness :
    ∃ r : RunOut,
      (∀ fuel, 1 ≤ fuel → processIssuesLoop wit3Env wit3Cfg fuel 1 [] = some r) ∧
      r.locked = pagesLockedIssues wit3Env wit3Cfg 1 1 ∧
      r.pagesFetched = List.range' 1 1 ∧ r.failures = [] := by
  have h := claim3_loop_terminates.1 wit3Env wit3Cfg (fun n => rfl) 0
    (fun j h1 h2 => by
      have hj : j = 1 := by omega
      subst hj
      exact ⟨⟨by decide, rfl⟩, rfl⟩)
    (fun j h1 h2 => by omega)
    (by decide)
  simpa using h

/-- Counterexample to claim C4: when the lock request for issue 1 throws
`boom` while issue 2 is also lockable, the run reports
`Failed to process issues: boom` — not `Failed to lock issue/PR #1: boom`
— and issues no lock request for issue 2: the exception is caught at
batch level, aborting the remaining items of the category. -/
theorem claim4_counterexample :
    processIssuesLoop cex4Env cex4Cfg 2 1 [] = some cex4Out ∧
    "Failed to lock issue/PR #1: boom" ∉ cex4Out.failures ∧
    cex4Out.lockCalls.map LockParams.issue_number = [1] ∧
    issueEligible cex4Cfg.nowMs cex4Cfg.daysInactive
      { number := 2, title := "B", updated_at := 0, pull_request := false,
        locked := false } = true := by decide

/-- Claim C4 as amended: when the lock request for an item throws, the
exception is caught at the batch level of that category's loop, which
reports `Failed to process issues: <message>` (respectively
`Failed to process pull requests: <message>`) and stops: the items after
the failing one are not processed, no further page is fetched, and no
output is published; only the items locked before the failure remain in
the manifest list. -/
theorem claim4_batch_level_failure :
    (∀ (env : Env) (cfg : Config) (e : String) (p : ℕ)
      (pre : List Issue) (bad : Issue) (post : List Issue),
      quotaOk env cfg p → env.fetchError p = none →
      env.pages p = pre ++ bad :: post →
      (∀ i ∈ pre, issueEligible cfg.nowMs cfg.daysInactive i = true →
        env.lockError i.number = none) →
      issueEligible cfg.nowMs cfg.daysInactive bad = true →
      env.lockError bad.number = some e →
      ∀ acc fuel, 1 ≤ fuel →
      processIssuesLoop env cfg fuel p acc = some
        { locked := acc ++ lockedRecsIssues cfg pre,
          warnings := [],
          failures := ["Failed to process issues: " ++ e],
          outputs := [],
          lockCalls := lockParamsIssues cfg pre ++
            [mkLockParams cfg.owner cfg.repo bad.number cfg.reason],
          pagesFetched := [p] }) ∧
    (∀ (env : Env) (cfg : Config) (e : String) (p : ℕ)
      (pre : List Issue) (bad : Issue) (post : List Issue),
      quotaOk env cfg p → env.fetchError p = none →
      env.pages p = pre ++ bad :: post →
      (∀ i ∈ pre, prEligible cfg.nowMs cfg.daysInactive i = true →
        env.lockError i.number = none) →
      prEligible cfg.nowMs cfg.daysInactive bad = true →
      env.lockError bad.number = some e →
      ∀ acc fuel, 1 ≤ fuel →
      processPRsLoop env cfg fuel p acc = some
        { locked := acc ++ lockedRecsPRs cfg pre,
          warnings := [],
          failures := ["Failed to process pull requests: " ++ e],
          outputs := [],
          lockCalls := lockParamsPRs cfg pre ++
            [mkLockParams cfg.owner cfg.repo bad.number cfg.reason],
          pagesFetched := [p] }) := by
  constructor
  · intro env cfg e p pre bad post hq hfe hpage hpre hbe hberr acc fuel hf
    exact processIssuesLoop_lock_fail env cfg e p pre bad post hq hfe hpage
      hpre hbe hberr acc fuel hf
  · intro env cfg e p pre bad post hq hfe hpage hpre hbe hberr acc fuel hf
    exact processPRsLoop_lock_fail env cfg e p pre bad post hq hfe hpage
      hpre hbe hberr acc fuel hf

/-- Concrete instance of `claim4_batch_level_failure` on the C4
environment. -/
theorem claim4_batch_level_failure_witness :
    processIssuesLoop cex4Env cex4Cfg 1 1 [] = some cex4Out := by
  rw [claim4_batch_level_failure.1 cex4Env cex4Cfg "boom" 1 []
    { number := 1, title := "A", updated_at := 0, pull_request := false,
      locked := false }
    [{ number := 2, title := "B", updated_at := 0, pull_request := false,
       locked := false }]
    ⟨by decide, rfl⟩ rfl (by decide) (by decide) (by decide) rfl [] 1
    (by decide)]
  decide

/-- Claim C5: when a category's processor finishes processing all of its
threads (the run reaches a page that is not full), it publishes the JSON
serialization of its manifest under the category's output key
(`locked-issues` / `locked-prs`), even when nothing was locked; the empty
manifest serializes to the literal string `[]`. -/
theorem claim5_manifest_published :
    (∀ (env : Env) (cfg : Config), (∀ n, env.lockError n = none) → ∀ d,
      (∀ j, 1 ≤ j → j ≤ 1 + d → quotaOk env cfg j ∧ env.fetchError j = none) →
      (∀ j, 1 ≤ j → j < 1 + d → (env.pages j).length = cfg.perPage) →
      (env.pages (1 + d)).length ≠ cfg.perPage →
      ∀ fuel, d + 1 ≤ fuel →
      ∃ r : RunOut, processIssuesLoop env cfg fuel 1 [] = some r ∧
        r.outputs = [("locked-issues", jsonLockRecs r.locked)]) ∧
    (∀ (env : Env) (cfg : Config), (∀ n, env.lockError n = none) → ∀ d,
      (∀ j, 1 ≤ j → j ≤ 1 + d → quotaOk env cfg j ∧ env.fetchError j = none) →
      (∀ j, 1 ≤ j → j < 1 + d → (env.pages j).length = cfg.perPage) →
      (env.pages (1 + d)).length ≠ cfg.perPage →
      ∀ fuel, d + 1 ≤ fuel →
      ∃ r : RunOut, processPRsLoop env cfg fuel 1 [] = some r ∧
        r.outputs = [("locked-prs", jsonLockRecs r.locked)]) ∧
    jsonLockRecs [] = "[]" := by
  refine ⟨?_, ?_, rfl⟩
  · intro env cfg hlock d hq hfull hshort fuel hf
    exact ⟨_,
      processIssuesLoop_run env cfg hlock d 1 hq hfull hshort [] fuel hf, rfl⟩
  · intro env cfg hlock d hq hfull hshort fuel hf
    exact ⟨_,
      processPRsLoop_run env cfg hlock d 1 hq hfull hshort [] fuel hf, rfl⟩

/-- Concrete instance of `claim5_manifest_published`: a run that locks
nothing still publishes the `locked-issues` output, with the literal
value `[]`. -/
theorem claim5_manifest_published_witness :
    (∃ r : RunOut, processIssuesLoop wit5Env wit5Cfg 1 1 [] = some r ∧
      r.outputs = [("locked-issues", jsonLockRecs r.locked)]) ∧
    (processIssuesLoop wit5Env wit5Cfg 1 1 []).map RunOut.outputs =
      some [("locked-issues", "[]")] := by
  constructor
  · exact claim5_manifest_published.1 wit5Env wit5Cfg (fun n => rfl) 0
      (fun j h1 h2 => by
        have hj : j = 1 := by omega
        subst hj
        exact ⟨⟨by decide, rfl⟩, rfl⟩)
      (fun j h1 h2 => by omega)
      (by decide) 1 le_rfl
  · decide

/-- Claim C6: when the configured lock reason is `undefined` or the empty
string, the lock-request object carries no `lock_reason` field at all;
when it is one of the four enumerated values, the field is present with
exactly that value. -/
theorem claim6_lock_reason (owner repo : String) (n : ℤ)
    (reason : Option String) (he : reason = none ∨ reason = some "")
    (s : String) (hs : s ∈ ["off-topic", "too heated", "resolved", "spam"]) :
    (mkLockParams owner repo n reason).lock_reason = none ∧
    (mkLockParams owner repo n (some s)).lock_reason = some s := by
  constructor
  · rcases he with rfl | rfl <;> simp [mkLockParams, strTruthy]
  · have hne : s ≠ "" := by
      simp only [List.mem_cons, List.mem_singleton] at hs
      rcases hs with rfl | rfl | rfl | rfl | h
      · decide
      · decide
      · decide
      · decide
      · simp at h
    simp [mkLockParams, strTruthy, hne]

/-- Concrete instance of `claim6_lock_reason`: an empty reason is omitted
and `off-topic` is forwarded verbatim. -/
theorem claim6_lock_reason_witness :
    (mkLockParams "o" "r" 1 (some "")).lock_reason = none ∧
    (mkLockParams "o" "r" 1 (some "off-topic")).lock_reason =
      some "off-topic" :=
  claim6_lock_reason "o" "r" 1 (some "") (Or.inr rfl) "off-topic"
    (by decide)

/-- Claim C7: every entry of a category's manifest corresponds to a lock
request for that number that completed without throwing — an entry is
appended only after its lock call returned, so a failed lock is never
reported as locked. -/
theorem claim7_manifest_sound :
    (∀ (env : Env) (cfg : Config) (fuel : ℕ) (r : RunOut),
      processIssuesLoop env cfg fuel 1 [] = some r →
      ∀ rec ∈ r.locked, env.lockError rec.number = none ∧
        ∃ c ∈ r.lockCalls, c.issue_number = rec.number) ∧
    (∀ (env : Env) (cfg : Config) (fuel : ℕ) (r : RunOut),
      processPRsLoop env cfg fuel 1 [] = some r →
      ∀ rec ∈ r.locked, env.lockError rec.number = none ∧
        ∃ c ∈ r.lockCalls, c.issue_number = rec.number) := by
  constructor
  · intro env cfg fuel r h rec hrec
    rcases processIssuesLoop_locked_mem env cfg fuel 1 [] r h rec hrec
      with hmem | hg
    · simp at hmem
    · exact hg
  · intro env cfg fuel r h rec hrec
    rcases processPRsLoop_locked_mem env cfg fuel 1 [] r h rec hrec
      with hmem | hg
    · simp at hmem
    · exact hg

/-- Concrete instance of `claim7_manifest_sound`: the manifest entry for
issue 7 corresponds to a lock call for number 7 that did not throw. -/
theorem claim7_manifest_sound_witness :
    wit3Env.lockError 7 = none ∧
    ∃ c ∈ wit7Out.lockCalls, c.issue_number = (7 : ℤ) :=
  claim7_manifest_sound.1 wit3Env wit3Cfg 1 wit7Out (by decide)
    { number := 7, title := "old" } (by decide)

/-- Claim C8: when the quota-status query itself throws, `checkRateLimit`
reports `Failed to check rate limit: <message>` and returns the
zero-valued status (remaining 0, reset 0, empty human-readable time),
never propagating the exception; any downstream comparison against a
non-negative buffer then treats the quota as exhausted and stops. -/
theorem claim8_ratelimit_failure (fmt : ℤ → String) (nowSec : ℤ)
    (e : String) (b : ℤ) (hb : 0 ≤ b) :
    checkRateLimit fmt nowSec (Except.error e) =
      ({ remaining := 0, resetTime := 0, resetTimeHumanReadable := "" },
       ["Failed to check rate limit: " ++ e]) ∧
    jsLeInt (checkRateLimit fmt nowSec (Except.error e)).1.remaining
      (some b) = true := by
  refine ⟨rfl, ?_⟩
  simp [checkRateLimit, jsLeInt, hb]

/-- Concrete instance of `claim8_ratelimit_failure`. -/
theorem claim8_ratelimit_failure_witness :
    checkRateLimit (fun n => toString n) 0 (Except.error "API error") =
      ({ remaining := 0, resetTime := 0, resetTimeHumanReadable := "" },
       ["Failed to check rate limit: API error"]) ∧
    jsLeInt (checkRateLimit (fun n => toString n) 0
      (Except.error "API error")).1.remaining (some 100) = true :=
  claim8_ratelimit_failure (fun n => toString n) 0 "API error" 100
    (by decide)

/-- Counterexample to claim C9: two threads that differ only in their
`locked` flag (both 31 days inactive against a 30-day threshold) receive
different lock decisions, so the decision does depend on the thread's
locked flag: the processor skips already-locked threads. -/
theorem claim9_counterexample :
    issueEligible 2678400000 (some 30)
      { number := 5, title := "t", updated_at := 0, pull_request := false,
        locked := true } = false ∧
    issueEligible 2678400000 (some 30)
      { number := 5, title := "t", updated_at := 0, pull_request := false,
        locked := false } = true ∧
    prEligible 2678400000 (some 30)
      { number := 6, title := "t", updated_at := 0, pull_request := false,
        locked := true } = false ∧
    prEligible 2678400000 (some 30)
      { number := 6, title := "t", updated_at := 0, pull_request := false,
        locked := false } = true := by decide

/-- Claim C9 as amended: the processor does re-check the thread's
`locked` flag — an already-locked thread is never locked again; only for
unlocked threads does the decision reduce to the inactivity computation
(and, for issues, the pull-request guard). -/
theorem claim9_locked_flag_checked (nowMs : ℤ) (days : Option ℤ)
    (i : Issue) :
    (i.locked = true →
      issueEligible nowMs days i = false ∧ prEligible nowMs days i = false) ∧
    (i.locked = false →
      issueEligible nowMs days i =
        (!i.pull_request && jsGtRat (daysDifference nowMs i.updated_at) days) ∧
      prEligible nowMs days i =
        jsGtRat (daysDifference nowMs i.updated_at) days) := by
  constructor
  · intro h
    constructor <;> simp [issueEligible, prEligible, h]
  · intro h
    constructor <;> simp [issueEligible, prEligible, h]

/-- Concrete instance of `claim9_locked_flag_checked`: an already-locked,
long-inactive thread is skipped. -/
theorem claim9_locked_flag_checked_witness :
    issueEligible 2678400000 (some 30)
      { number := 8, title := "t", updated_at := 0, pull_request := false,
        locked := true } = false ∧
    prEligible 2678400000 (some 30)
      { number := 8, title := "t", updated_at := 0, pull_request := false,
        locked := true } = false :=
  (claim9_locked_flag_checked 2678400000 (some 30)
    { number := 8, title := "t", updated_at := 0, pull_request := false,
      locked := true }).1 rfl

/-- Claim C10: when the rate-limit-buffer input does not parse as a
decimal integer (`parseInt` yields `NaN`, e.g. on the empty string), the
admission comparison `remaining > buffer` is `false` for every remaining
value, so the run warns `Initial rate limit too low, stopping processing.`
and invokes neither category loop: nothing is fetched or locked beyond
the single initial quota query. -/
theorem claim10_nan_buffer (s : String) (hs : parseIntJS s = none)
    (renv : RunEnv) (inp : Inputs) (hbuf : inp.rateLimitBuffer = s)
    (owner repo : String) (nowMs nowSec : ℤ) (fmt : ℤ → String) (fuel : ℕ)
    (rlr : RateLimitResources)
    (hok : renv.initialRateLimit = Except.ok rlr) :
    (∀ r : ℤ, jsGtInt r none = false) ∧
    runModel renv inp owner repo nowMs nowSec fmt fuel =
      { warnings := ["Initial rate limit too low, stopping processing."],
        failures := [], started := false,
        issuesRun := none, prsRun := none } := by
  refine ⟨fun r => rfl, ?_⟩
  simp [runModel, hbuf, hs, hok, checkRateLimit, jsGtInt]

/-- Concrete instance of `claim10_nan_buffer`: with an empty
rate-limit-buffer input the run only warns, despite 5000 remaining. -/
theorem claim10_nan_buffer_witness :
    parseIntJS "" = none ∧
    runModel wit10Env wit10Inputs "o" "r" 2678400000 0
        (fun n => toString n) 3 =
      { warnings := ["Initial rate limit too low, stopping processing."],
        failures := [], started := false,
        issuesRun := none, prsRun := none } :=
  ⟨by decide,
    (claim10_nan_buffer "" (by decide) wit10Env wit10Inputs rfl "o" "r"
      2678400000 0 (fun n => toString n) 3
      { core := { remaining := 5000, reset := 3600 },
        search := { remaining := 5000, reset := 3600 } } rfl).2⟩

end InactivityLock
